import Mathlib

set_option maxRecDepth 100000

/-!
Verification development for the ReAct agent demo (src/react_agent.py).

The file shallowly embeds the program's core: the sandboxed arithmetic
evaluator (`safe_eval`), the tool dispatcher (`dispatch_function_call`),
and the agent control loop (`run_react_agent_fallback` / `run`).

Modelling conventions:
- Python `ast` trees for `mode="eval"` are modelled by `PyExpr` (the
  arithmetic fragment plus representative disallowed syntax: names,
  single-argument calls, attribute access).  Python integer literals are
  arbitrary-precision, modelled by `Int`/`Nat`; Python floats (which in
  this program arise only as results of `/`, `**` with negative exponent,
  and float modulo/floor-division) are idealised as exact rationals `Rat`.
- Fallible operations return `Except`/`Option`; "never raises" in the
  source corresponds to a total Lean function returning `String`.
- Network I/O (the Wikipedia search tool) and the OpenAI model backend
  are modelled as oracle parameters (`String → String` respectively
  `List Msg → ModelMsg`), since they are external collaborators.
- `time.sleep` and logging are observationally irrelevant and are not
  modelled.
-/

/-- Syntactic categories of the walked AST nodes, mirroring the Python
`ast` class of each node (`type(node).__name__`).  `Num` is the deprecated
alias present in the source's allow-list; `ast.parse` never produces it
(literals parse as `Constant`), so the walk never yields it. -/
inductive NodeKind where
  | Expression
  | BinOp
  | UnaryOp
  | Num
  | Constant
  | Add
  | Sub
  | Mult
  | Div
  | Pow
  | Mod
  | USub
  | Load
  | Name
  | Call
  | Attribute
  | FloorDiv
deriving DecidableEq, Repr

/-- Python constant literals occurring in the modelled fragment.  Float
literals are outside the modelled grammar (the program's inputs of
interest are integer arithmetic); floats still arise as evaluation
results. -/
inductive PyConst where
  | int (n : Int)
  | str (s : String)
  | bool (b : Bool)
  | noneC
deriving DecidableEq, Repr

/-- Binary operator nodes of the arithmetic grammar. -/
inductive PyOp where
  | Add
  | Sub
  | Mult
  | Div
  | Pow
  | Mod
  | FloorDiv
deriving DecidableEq, Repr

/-- Python expression trees (the body of an `ast.Expression`).  `UnaryOp`
models `USub` (the only unary operator in the source's allow-list that the
modelled grammar produces).  `Call` models a call with one positional
argument; `Name` and `Attribute` are further representative disallowed
categories. -/
inductive PyExpr where
  | Constant (c : PyConst)
  | BinOp (left : PyExpr) (op : PyOp) (right : PyExpr)
  | UnaryOp (operand : PyExpr)
  | Name (id : String)
  | Call (func : PyExpr) (arg : PyExpr)
  | Attribute (value : PyExpr) (attr : String)
deriving DecidableEq, Repr

/-- The `ast` class of a binary operator node. -/
def opNodeKind : PyOp → NodeKind
  | .Add => .Add
  | .Sub => .Sub
  | .Mult => .Mult
  | .Div => .Div
  | .Pow => .Pow
  | .Mod => .Mod
  | .FloorDiv => .FloorDiv

/-- A node as enumerated by `ast.walk`: an expression node, an operator
node, the `USub` node of a unary operation, or a `Load` context node. -/
inductive PyNode where
  | ex (e : PyExpr)
  | opNode (o : PyOp)
  | usubNode
  | loadNode
deriving DecidableEq, Repr

/-- The `ast` class of a walked node. -/
def pyNodeKind : PyNode → NodeKind
  | .ex (.Constant _) => .Constant
  | .ex (.BinOp _ _ _) => .BinOp
  | .ex (.UnaryOp _) => .UnaryOp
  | .ex (.Name _) => .Name
  | .ex (.Call _ _) => .Call
  | .ex (.Attribute _ _) => .Attribute
  | .opNode o => opNodeKind o
  | .usubNode => .USub
  | .loadNode => .Load

/-- The children of a node in the order `ast.iter_child_nodes` yields
them (field order of the Python `ast` classes: `BinOp(left, op, right)`,
`UnaryOp(op, operand)`, `Name(id, ctx)`, `Call(func, args, keywords)`,
`Attribute(value, attr, ctx)`).  Operator and context nodes are leaves. -/
def pyNodeChildren : PyNode → List PyNode
  | .ex (.Constant _) => []
  | .ex (.BinOp l o r) => [.ex l, .opNode o, .ex r]
  | .ex (.UnaryOp e) => [.usubNode, .ex e]
  | .ex (.Name _) => [.loadNode]
  | .ex (.Call f a) => [.ex f, .ex a]
  | .ex (.Attribute v _) => [.ex v, .loadNode]
  | .opNode _ => []
  | .usubNode => []
  | .loadNode => []

/-- Total number of walked nodes in the subtree rooted at an expression
(the expression node itself plus operator/context nodes and recursive
children). -/
def exprWeight : PyExpr → Nat
  | .Constant _ => 1
  | .BinOp l _ r => 2 + exprWeight l + exprWeight r
  | .UnaryOp e => 2 + exprWeight e
  | .Name _ => 2
  | .Call f a => 1 + exprWeight f + exprWeight a
  | .Attribute v _ => 2 + exprWeight v

/-- Number of walked nodes in the subtree rooted at a node. -/
def pyNodeWeight : PyNode → Nat
  | .ex e => exprWeight e
  | .opNode _ => 1
  | .usubNode => 1
  | .loadNode => 1

/-- Total weight of a BFS queue. -/
def queueWeight (q : List PyNode) : Nat :=
  (q.map pyNodeWeight).sum

/-- Breadth-first enumeration of node kinds, mirroring `ast.walk`
(a FIFO queue seeded with the root; each popped node is yielded and its
children are appended).  The fuel argument makes the recursion
structural; `queueWeight q` steps always suffice. -/
def bfsWalk : Nat → List PyNode → List NodeKind
  | _, [] => []
  | 0, _ :: _ => []
  | fuel + 1, n :: rest => pyNodeKind n :: bfsWalk fuel (rest ++ pyNodeChildren n)

/-- The kinds of all nodes of a parse tree in `ast.walk` order: the
`Expression` wrapper first, then the BFS enumeration from the body. -/
def walkKinds (t : PyExpr) : List NodeKind :=
  NodeKind.Expression :: bfsWalk (exprWeight t) [PyNode.ex t]

/-- The kinds of all nodes of a tree, by structural recursion (used as a
proof-friendly description of the set enumerated by `walkKinds`). -/
def exprKinds : PyExpr → List NodeKind
  | .Constant _ => [.Constant]
  | .BinOp l o r => .BinOp :: opNodeKind o :: (exprKinds l ++ exprKinds r)
  | .UnaryOp e => .UnaryOp :: .USub :: exprKinds e
  | .Name _ => [.Name, .Load]
  | .Call f a => .Call :: (exprKinds f ++ exprKinds a)
  | .Attribute v _ => .Attribute :: .Load :: exprKinds v

/-- All node kinds of a full parse tree, including the wrapper. -/
def treeKinds (t : PyExpr) : List NodeKind :=
  NodeKind.Expression :: exprKinds t

/-- The allow-list `ALLOWED_AST_NODES` of src/react_agent.py. -/
def ALLOWED_AST_NODES : List NodeKind :=
  [.Expression, .BinOp, .UnaryOp, .Num, .Constant,
   .Add, .Sub, .Mult, .Div, .Pow, .Mod, .USub,
   .Load, .FloorDiv]

/-- Membership test `type(node) in ALLOWED_AST_NODES`. -/
def kindAllowed (k : NodeKind) : Bool :=
  decide (k ∈ ALLOWED_AST_NODES)

/-- `safe_eval`'s validation walk: the kind of the first walked node
whose class is not allow-listed, if any. -/
def firstDisallowed (t : PyExpr) : Option NodeKind :=
  (walkKinds t).find? (fun k => !(kindAllowed k))

/-- `type(node).__name__` for the disallowed-part error message. -/
def kindName : NodeKind → String
  | .Expression => "Expression"
  | .BinOp => "BinOp"
  | .UnaryOp => "UnaryOp"
  | .Num => "Num"
  | .Constant => "Constant"
  | .Add => "Add"
  | .Sub => "Sub"
  | .Mult => "Mult"
  | .Div => "Div"
  | .Pow => "Pow"
  | .Mod => "Mod"
  | .USub => "USub"
  | .Load => "Load"
  | .Name => "Name"
  | .Call => "Call"
  | .Attribute => "Attribute"
  | .FloorDiv => "FloorDiv"

/-- Python runtime values produced by evaluating the modelled fragment.
Floats are idealised as exact rationals. -/
inductive PyVal where
  | int (n : Int)
  | float (q : Rat)
  | str (s : String)
  | bool (b : Bool)
  | noneV
deriving DecidableEq, Repr

/-- Exceptions raised during `eval` of a validated tree, carrying the
message text that `str(e)` would produce. -/
inductive PyErr where
  | zeroDivision (msg : String)
  | typeError (msg : String)
  | nameError (msg : String)
  | unsupported (msg : String)
deriving DecidableEq, Repr

/-- The message interpolated into the f-string of the except branch. -/
def errText : PyErr → String
  | .zeroDivision m => m
  | .typeError m => m
  | .nameError m => m
  | .unsupported m => m

/-- Numeric view of a value: Python `bool` is an `int` subtype and
coerces in arithmetic. -/
inductive PyNum where
  | i (n : Int)
  | f (q : Rat)
deriving DecidableEq, Repr

/-- Numeric coercion (`int`, `bool`, `float` are numbers; `str`/`None`
are not). -/
def asNum : PyVal → Option PyNum
  | .int n => some (.i n)
  | .bool b => some (.i (if b then 1 else 0))
  | .float q => some (.f q)
  | .str _ => none
  | .noneV => none

/-- The rational content of a number. -/
def numToRat : PyNum → Rat
  | .i n => (n : Rat)
  | .f q => q

/-- Whether a number is exactly zero. -/
def numIsZero (a : PyNum) : Bool :=
  numToRat a == 0

/-- Result of an int/int-preserving binary operation: Python returns an
`int` when both operands are `int` (or `bool`) and a `float` otherwise. -/
def numCombine (a b : PyNum) (fi : Int → Int → Int) (ff : Rat → Rat → Rat) : PyVal :=
  match a, b with
  | .i x, .i y => .int (fi x y)
  | _, _ => .float (ff (numToRat a) (numToRat b))

/-- String repetition `s * n` (non-positive counts give the empty
string, as in Python). -/
def strRepeat (s : String) (n : Int) : String :=
  String.join (List.replicate n.toNat s)

/-- Python `+`: numeric addition, or string concatenation. -/
def pyAdd (a b : PyVal) : Except PyErr PyVal :=
  match a, b with
  | .str x, .str y => .ok (.str (x ++ y))
  | _, _ =>
    match asNum a, asNum b with
    | some x, some y => .ok (numCombine x y (fun m n => m + n) (fun p q => p + q))
    | _, _ => .error (.typeError "unsupported operand type(s) for +")

/-- Python binary `-`. -/
def pySub (a b : PyVal) : Except PyErr PyVal :=
  match asNum a, asNum b with
  | some x, some y => .ok (numCombine x y (fun m n => m - n) (fun p q => p - q))
  | _, _ => .error (.typeError "unsupported operand type(s) for -")

/-- Python `*`: numeric product, or string repetition. -/
def pyMult (a b : PyVal) : Except PyErr PyVal :=
  match a, b with
  | .str x, .int n => .ok (.str (strRepeat x n))
  | .str x, .bool c => .ok (.str (strRepeat x (if c then 1 else 0)))
  | .int n, .str x => .ok (.str (strRepeat x n))
  | .bool c, .str x => .ok (.str (strRepeat x (if c then 1 else 0)))
  | _, _ =>
    match asNum a, asNum b with
    | some x, some y => .ok (numCombine x y (fun m n => m * n) (fun p q => p * q))
    | _, _ => .error (.typeError "unsupported operand type(s) for *")

/-- Python `/`: true division, always a float; a zero divisor raises
`ZeroDivisionError` (message as in CPython for the int/int case). -/
def pyDiv (a b : PyVal) : Except PyErr PyVal :=
  match asNum a, asNum b with
  | some x, some y =>
    if numIsZero y then
      match x, y with
      | .i _, .i _ => .error (.zeroDivision "division by zero")
      | _, _ => .error (.zeroDivision "float division by zero")
    else .ok (.float (numToRat x / numToRat y))
  | _, _ => .error (.typeError "unsupported operand type(s) for /")

/-- Python `%`: floor-convention remainder (sign of the divisor);
`Int.fmod` matches Python on integers, and the float case is
`a - b * floor(a / b)`. -/
def pyMod (a b : PyVal) : Except PyErr PyVal :=
  match asNum a, asNum b with
  | some x, some y =>
    if numIsZero y then
      match x, y with
      | .i _, .i _ => .error (.zeroDivision "integer division or modulo by zero")
      | _, _ => .error (.zeroDivision "float modulo")
    else .ok (numCombine x y (fun m n => Int.fmod m n)
        (fun p q => p - q * ((Int.floor (p / q) : Int) : Rat)))
  | _, _ => .error (.typeError "unsupported operand type(s) for %")

/-- Python `//`: floor division; `Int.fdiv` matches Python on integers,
and the float case is `floor(a / b)` as a float. -/
def pyFloorDiv (a b : PyVal) : Except PyErr PyVal :=
  match asNum a, asNum b with
  | some x, some y =>
    if numIsZero y then
      match x, y with
      | .i _, .i _ => .error (.zeroDivision "integer division or modulo by zero")
      | _, _ => .error (.zeroDivision "float floor division by zero")
    else .ok (numCombine x y (fun m n => Int.fdiv m n)
        (fun p q => ((Int.floor (p / q) : Int) : Rat)))
  | _, _ => .error (.typeError "unsupported operand type(s) for //")

/-- Python `**` on the exact fragment: an `int` result for int base and
non-negative int exponent, a float result when either operand is a float
or the exponent is negative (`0` to a negative power raises).  A
non-integral exponent generally yields an irrational real; that corner is
outside the exact-arithmetic model and is mapped to an `unsupported`
error (no claim depends on it). -/
def pyPow (a b : PyVal) : Except PyErr PyVal :=
  match asNum a, asNum b with
  | some (.i x), some (.i y) =>
    if 0 ≤ y then .ok (.int (x ^ y.toNat))
    else if x = 0 then .error (.zeroDivision "0.0 cannot be raised to a negative power")
    else .ok (.float ((x : Rat) ^ y))
  | some x, some y =>
    let q := numToRat x
    let e := numToRat y
    if e.den = 1 then
      if q = 0 ∧ e.num < 0 then .error (.zeroDivision "0.0 cannot be raised to a negative power")
      else .ok (.float (q ^ e.num))
    else .error (.unsupported "non-integral exponent outside the exact-arithmetic model")
  | _, _ => .error (.typeError "unsupported operand type(s) for ** or pow()")

/-- Dispatch of one binary operator node. -/
def applyBinOp : PyOp → PyVal → PyVal → Except PyErr PyVal
  | .Add, a, b => pyAdd a b
  | .Sub, a, b => pySub a b
  | .Mult, a, b => pyMult a b
  | .Div, a, b => pyDiv a b
  | .Pow, a, b => pyPow a b
  | .Mod, a, b => pyMod a b
  | .FloorDiv, a, b => pyFloorDiv a b

/-- Python unary `-`. -/
def pyNeg (a : PyVal) : Except PyErr PyVal :=
  match asNum a with
  | some (.i n) => .ok (.int (-n))
  | some (.f q) => .ok (.float (-q))
  | none => .error (.typeError "bad operand type for unary -")

/-- The value of a constant literal. -/
def constVal : PyConst → PyVal
  | .int n => .int n
  | .str s => .str s
  | .bool b => .bool b
  | .noneC => .noneV

/-- Embedding of `eval(compile(tree, "<ast>", "eval"), {"__builtins__": {}}, {})`
on the modelled trees.  The globals and locals are empty, so a `Name`
raises `NameError`; `Call` and `Attribute` on anything evaluable here
raise `TypeError`/`AttributeError` (these branches are unreachable after
validation and their message texts surface in no claim). -/
def pyEval : PyExpr → Except PyErr PyVal
  | .Constant c => .ok (constVal c)
  | .BinOp l o r => do
    let a ← pyEval l
    let b ← pyEval r
    applyBinOp o a b
  | .UnaryOp e => do
    let a ← pyEval e
    pyNeg a
  | .Name x => .error (.nameError ("name " ++ x ++ " is not defined"))
  | .Call f a => do
    let _ ← pyEval f
    let _ ← pyEval a
    .error (.typeError "object is not callable")
  | .Attribute v a => do
    let _ ← pyEval v
    .error (.typeError ("object has no attribute " ++ a))

/-- `str` of a float.  An integral float prints as in Python (`"2.0"`);
non-integral rationals use a `num/den` rendering, since the shortest-
round-trip repr of a binary float is outside the exact model (no claim
evaluates this branch). -/
def floatStr (q : Rat) : String :=
  if q.den = 1 then toString q.num ++ ".0"
  else toString q.num ++ "/" ++ toString q.den

/-- `str(result)` on the modelled values, matching Python's rendering of
ints, strings, bools and `None`. -/
def pyValStr : PyVal → String
  | .int n => toString n
  | .float q => floatStr q
  | .str s => s
  | .bool b => if b then "True" else "False"
  | .noneV => "None"

/-- The walk-and-evaluate part of `safe_eval`, applied to a successfully
parsed tree: reject on the first non-allow-listed node kind, otherwise
evaluate with empty bindings and render the result (or the evaluation
failure) as a string. -/
def safe_eval_tree (tree : PyExpr) : String :=
  match firstDisallowed tree with
  | some k => "calc error: disallowed expression part " ++ kindName k
  | none =>
    match pyEval tree with
    | .ok result => pyValStr result
    | .error e => "calc error: evaluation failed (" ++ errText e ++ ")"

/-- Tokens of the modelled Python expression grammar. -/
inductive Tok where
  | num (n : Nat)
  | strTok (s : String)
  | ident (s : String)
  | plus
  | minus
  | star
  | slash
  | dstar
  | dslash
  | percent
  | lparen
  | rparen
deriving DecidableEq, Repr

/-- Accumulate a digit run into a natural number. -/
def digitsVal (acc : Nat) : List Char → Nat × List Char
  | [] => (acc, [])
  | c :: cs =>
    if c.isDigit then digitsVal (acc * 10 + (c.toNat - 48)) cs
    else (acc, c :: cs)

/-- Collect the body of a string literal up to the given quote
character.  Escape sequences are outside the modelled fragment and are
reported as lexical errors. -/
def takeStr (quote : Char) : List Char → Option (String × List Char)
  | [] => none
  | c :: cs =>
    if c == quote then some ("", cs)
    else if c == '\\' then none
    else match takeStr quote cs with
      | some (s, rest) => some (String.mk (c :: s.data), rest)
      | none => none

/-- Collect an identifier tail (letters, digits, underscores). -/
def takeIdent : List Char → String × List Char
  | [] => ("", [])
  | c :: cs =>
    if c.isAlphanum || c == '_' then
      let (s, rest) := takeIdent cs
      (String.mk (c :: s.data), rest)
    else ("", c :: cs)

/-- Tokenizer for the modelled fragment of the Python expression
grammar: integer literals, quoted string literals without escapes,
identifiers, the arithmetic operators and parentheses.  Anything else
(including float literals) is a lexical error; every lexical error
surfaces through `ast.parse`'s failure branch of `safe_eval`. -/
def tokenizeGo : Nat → List Char → Except String (List Tok)
  | 0, _ => .error "tokenizer out of fuel"
  | _, [] => .ok []
  | fuel + 1, c :: cs =>
    if c.isWhitespace then tokenizeGo fuel cs
    else if c.isDigit then
      let (n, rest) := digitsVal 0 (c :: cs)
      match tokenizeGo fuel rest with
      | .ok ts => .ok (.num n :: ts)
      | .error e => .error e
    else if c.isAlpha || c == '_' then
      let (s, rest) := takeIdent (c :: cs)
      match tokenizeGo fuel rest with
      | .ok ts => .ok (.ident s :: ts)
      | .error e => .error e
    else if c == '\'' || c == '"' then
      match takeStr c cs with
      | some (s, rest) =>
        match tokenizeGo fuel rest with
        | .ok ts => .ok (.strTok s :: ts)
        | .error e => .error e
      | none => .error "unterminated or unsupported string literal"
    else if c == '*' then
      match cs with
      | d :: cs2 =>
        if d == '*' then
          match tokenizeGo fuel cs2 with
          | .ok ts => .ok (.dstar :: ts)
          | .error e => .error e
        else match tokenizeGo fuel cs with
          | .ok ts => .ok (.star :: ts)
          | .error e => .error e
      | [] => .ok [.star]
    else if c == '/' then
      match cs with
      | d :: cs2 =>
        if d == '/' then
          match tokenizeGo fuel cs2 with
          | .ok ts => .ok (.dslash :: ts)
          | .error e => .error e
        else match tokenizeGo fuel cs with
          | .ok ts => .ok (.slash :: ts)
          | .error e => .error e
      | [] => .ok [.slash]
    else if c == '+' then
      match tokenizeGo fuel cs with
      | .ok ts => .ok (.plus :: ts)
      | .error e => .error e
    else if c == '-' then
      match tokenizeGo fuel cs with
      | .ok ts => .ok (.minus :: ts)
      | .error e => .error e
    else if c == '%' then
      match tokenizeGo fuel cs with
      | .ok ts => .ok (.percent :: ts)
      | .error e => .error e
    else if c == '(' then
      match tokenizeGo fuel cs with
      | .ok ts => .ok (.lparen :: ts)
      | .error e => .error e
    else if c == ')' then
      match tokenizeGo fuel cs with
      | .ok ts => .ok (.rparen :: ts)
      | .error e => .error e
    else .error ("unrecognized character " ++ String.mk [c])

/-- Tokenize a whole input string. -/
def tokenize (s : String) : Except String (List Tok) :=
  tokenizeGo (s.length + 1) s.data

/-- Nonterminals of the recursive-descent parser, following Python's
expression precedence for the modelled fragment:
additive < multiplicative < unary minus < power (right-associative,
binding tighter than unary minus on its left) < atom.  `addRest` and
`mulRest` carry the left-associative accumulator. -/
inductive PLvl where
  | addE
  | addRest (acc : PyExpr)
  | mulE
  | mulRest (acc : PyExpr)
  | unE
  | powE
  | atomE
deriving Repr

/-- Recursive-descent parser over the token list, mirroring the grammar
`ast.parse(expr, mode="eval")` accepts on the modelled fragment.  The
fuel argument makes the recursion structural; the fuel passed by
`parseEval` always suffices for inputs of the fragment. -/
def parseL : Nat → PLvl → List Tok → Except String (PyExpr × List Tok)
  | 0, _, _ => .error "expression nesting exceeds parser fuel"
  | fuel + 1, lvl, ts =>
    match lvl with
    | .addE =>
      match parseL fuel .mulE ts with
      | .ok (e, rest) => parseL fuel (.addRest e) rest
      | .error err => .error err
    | .addRest acc =>
      match ts with
      | .plus :: rest =>
        match parseL fuel .mulE rest with
        | .ok (e, rest2) => parseL fuel (.addRest (.BinOp acc .Add e)) rest2
        | .error err => .error err
      | .minus :: rest =>
        match parseL fuel .mulE rest with
        | .ok (e, rest2) => parseL fuel (.addRest (.BinOp acc .Sub e)) rest2
        | .error err => .error err
      | _ => .ok (acc, ts)
    | .mulE =>
      match parseL fuel .unE ts with
      | .ok (e, rest) => parseL fuel (.mulRest e) rest
      | .error err => .error err
    | .mulRest acc =>
      match ts with
      | .star :: rest =>
        match parseL fuel .unE rest with
        | .ok (e, rest2) => parseL fuel (.mulRest (.BinOp acc .Mult e)) rest2
        | .error err => .error err
      | .slash :: rest =>
        match parseL fuel .unE rest with
        | .ok (e, rest2) => parseL fuel (.mulRest (.BinOp acc .Div e)) rest2
        | .error err => .error err
      | .dslash :: rest =>
        match parseL fuel .unE rest with
        | .ok (e, rest2) => parseL fuel (.mulRest (.BinOp acc .FloorDiv e)) rest2
        | .error err => .error err
      | .percent :: rest =>
        match parseL fuel .unE rest with
        | .ok (e, rest2) => parseL fuel (.mulRest (.BinOp acc .Mod e)) rest2
        | .error err => .error err
      | _ => .ok (acc, ts)
    | .unE =>
      match ts with
      | .minus :: rest =>
        match parseL fuel .unE rest with
        | .ok (e, rest2) => .ok (.UnaryOp e, rest2)
        | .error err => .error err
      | _ => parseL fuel .powE ts
    | .powE =>
      match parseL fuel .atomE ts with
      | .ok (a, .dstar :: rest2) =>
        match parseL fuel .unE rest2 with
        | .ok (b, rest3) => .ok (.BinOp a .Pow b, rest3)
        | .error err => .error err
      | .ok (a, rest) => .ok (a, rest)
      | .error err => .error err
    | .atomE =>
      match ts with
      | .num n :: rest => .ok (.Constant (.int (n : Int)), rest)
      | .strTok s :: rest => .ok (.Constant (.str s), rest)
      | .ident s :: rest =>
        if s == "True" then .ok (.Constant (.bool true), rest)
        else if s == "False" then .ok (.Constant (.bool false), rest)
        else if s == "None" then .ok (.Constant .noneC, rest)
        else .ok (.Name s, rest)
      | .lparen :: rest =>
        match parseL fuel .addE rest with
        | .ok (e, .rparen :: rest2) => .ok (e, rest2)
        | .ok (_, _) => .error "expected closing parenthesis"
        | .error err => .error err
      | _ => .error "unexpected token or end of input"

/-- Embedding of `ast.parse(expr, mode="eval")` on the modelled
fragment: tokenize, parse one expression, require the input to be
exhausted.  The error branch corresponds to the `SyntaxError` raised by
`ast.parse` (the exact CPython message text is not modelled; only this
function's own error text is carried). -/
def parseEval (s : String) : Except String PyExpr :=
  match tokenize s with
  | .error e => .error e
  | .ok ts =>
    match parseL (10 * (ts.length + 1)) .addE ts with
    | .ok (e, []) => .ok e
    | .ok (_, _ :: _) => .error "unexpected trailing tokens"
    | .error e => .error e

/-- Embedding of `safe_eval` from src/react_agent.py: parse failure
yields an invalid-expression message, then the allow-list walk, then the
sandboxed evaluation whose failures yield an evaluation-failed message.
Totality of this function models "never raises to its caller". -/
def safe_eval (expr : String) : String :=
  match parseEval expr with
  | .error e => "calc error: invalid expression (" ++ e ++ ")"
  | .ok tree => safe_eval_tree tree

/-- Embedding of `tool_search`: the empty-query guard is the source's;
the network interaction (two chained Wikipedia requests) is modelled by
the oracle. -/
def tool_search (searchOracle : String → String) (query : String) : String :=
  if query == "" then "search: empty query" else searchOracle query

/-- Dictionary lookup `args.get(key, "")`: the JSON argument object is
modelled as an association list with string values (the only values the
two tools read). -/
def argGet (args : List (String × String)) (key : String) : String :=
  match args.find? (fun p => p.1 == key) with
  | some p => p.2
  | none => ""

/-- Embedding of `dispatch_function_call`. -/
def dispatch_function_call (searchOracle : String → String)
    (function_name : String) (args : List (String × String)) : String :=
  if function_name == "search" then tool_search searchOracle (argGet args "query")
  else if function_name == "calc" then safe_eval (argGet args "expression")
  else "unknown function " ++ function_name


/-- The `function_call` payload of a model response
(`msg.function_call.name` and the raw argument string, which the OpenAI
client may return as `None`). -/
structure FuncCallMsg where
  name : String
  arguments : Option String
deriving DecidableEq, Repr

/-- A model backend response (`resp.choices[0].message`): a role, an
optional text content and an optional structured function call. -/
structure ModelMsg where
  role : String
  content : Option String
  function_call : Option FuncCallMsg
deriving DecidableEq, Repr

/-- One transcript entry.  The Python code builds plain dictionaries
with differing key sets; absent keys are modelled as `none`. -/
structure Msg where
  role : String
  content : Option String := none
  name : Option String := none
  function_call : Option (String × String) := none
deriving DecidableEq, Repr

/-- Python truthiness of `msg.content`: neither `None` nor the empty
string. -/
def contentTruthy : Option String → Bool
  | none => false
  | some s => !(s == "")

/-- The SYSTEM_PROMPT constant of src/react_agent.py. -/
def SYSTEM_PROMPT : String :=
  "You are an assistant that follows the ReAct pattern.\n" ++
  "When you need facts or calculations, call the appropriate function:\n" ++
  "- use search(query) to look up concise factual summaries.\n" ++
  "- use calc(expression) to compute numeric results.\n" ++
  "When you know the final response for the user, reply with \"Final Answer: <answer>\".\n" ++
  "Be concise and avoid calling tools unnecessarily.\n"

/-- The conversation seed: the system instruction followed by the user's
question. -/
def seedMessages (user_question : String) : List Msg :=
  [{ role := "system", content := some SYSTEM_PROMPT },
   { role := "user", content := some user_question }]

/-- The budget-exhausted sentinel returned after the while loop. -/
def stoppedMsg : String :=
  "Agent stopped: reached max steps or no final answer."

/-- Python `str.split(sep)` for a non-empty separator, on character
lists: maximal left-to-right splitting at non-overlapping occurrences.
The fuel argument makes the recursion structural; `length + 1` steps
suffice. -/
def splitOnSub (sep : List Char) : Nat → List Char → List (List Char)
  | _, [] => [[]]
  | 0, s => [s]
  | fuel + 1, c :: rest =>
    if sep.isPrefixOf (c :: rest) && !sep.isEmpty then
      [] :: splitOnSub sep fuel ((c :: rest).drop sep.length)
    else
      match splitOnSub sep fuel rest with
      | [] => [[c]]
      | h :: t => (c :: h) :: t

/-- Python `str.strip()` restricted to ASCII whitespace (the only
whitespace occurring in this program's strings). -/
def pyStrip (s : List Char) : List Char :=
  ((s.dropWhile Char.isWhitespace).reverse.dropWhile Char.isWhitespace).reverse

/-- The split of an assistant text at the literal final-answer marker. -/
def finalSplit (text : String) : List (List Char) :=
  splitOnSub "Final Answer:".data (text.data.length + 1) text.data

/-- Python `"Final Answer:" in assistant_text`. -/
def containsFinal (text : String) : Bool :=
  !((finalSplit text).length == 1)

/-- `assistant_text.split("Final Answer:")[-1].strip()`. -/
def extractFinal (text : String) : String :=
  String.mk (pyStrip (((finalSplit text).getLast?).getD []))

/-- Characters Lean cannot write literally under this file's hygiene:
the opening brace. -/
def braceOpen : Char := Char.ofNat 123

/-- The closing brace. -/
def braceClose : Char := Char.ofNat 125

/-- Lexical helper for the JSON fragment: a quoted string without
escapes.  Returns the body and the remaining characters. -/
def jsonStr : List Char → Option (String × List Char)
  | [] => none
  | c :: cs =>
    if c == '"' then some ("", cs)
    else if c == '\\' then none
    else match jsonStr cs with
      | some (s, rest) => some (String.mk (c :: s.data), rest)
      | none => none

/-- Skip JSON whitespace. -/
def jsonWs (s : List Char) : List Char :=
  s.dropWhile Char.isWhitespace

/-- Member list of a JSON object of the modelled fragment
(string-valued members only — the shape both tools consume).  The fuel
argument makes the recursion structural. -/
def jsonMembers : Nat → List Char → Option (List (String × String) × List Char)
  | 0, _ => none
  | fuel + 1, s =>
    match jsonWs s with
    | c :: cs =>
      if c == '"' then
        match jsonStr cs with
        | some (k, rest) =>
          match jsonWs rest with
          | c2 :: cs2 =>
            if c2 == ':' then
              match jsonWs cs2 with
              | c3 :: cs3 =>
                if c3 == '"' then
                  match jsonStr cs3 with
                  | some (v, rest2) =>
                    match jsonWs rest2 with
                    | c4 :: cs4 =>
                      if c4 == ',' then
                        match jsonMembers fuel cs4 with
                        | some (ms, rest3) => some ((k, v) :: ms, rest3)
                        | none => none
                      else if c4 == braceClose then some ([(k, v)], cs4)
                      else none
                    | [] => none
                  | none => none
                else none
              | [] => none
            else none
          | [] => none
        | none => none
      else none
    | [] => none

/-- Embedding of `json.loads` on the fragment the agent loop feeds to
the tools: a flat object with string keys and string values (or the
empty object).  Anything outside this fragment is reported as a failure;
the loop's `except` branch then substitutes the empty argument object,
as the source does for malformed JSON. -/
def parseJsonObj (s : String) : Option (List (String × String)) :=
  match jsonWs s.data with
  | c :: cs =>
    if c == braceOpen then
      match jsonWs cs with
      | c2 :: cs2 =>
        if c2 == braceClose then
          if (jsonWs cs2).isEmpty then some [] else none
        else
          match jsonMembers (s.length + 1) (c :: cs).tail with
          | some (ms, rest) => if (jsonWs rest).isEmpty then some ms else none
          | none => none
      | [] => none
    else none
  | [] => none

/-- The default raw argument string `msg.function_call.arguments or
"\x7b\x7d"` (Python `or` substitutes on `None` and on the empty
string). -/
def argStrOrDefault : Option String → String
  | none => "\x7b\x7d"
  | some a => if a == "" then "\x7b\x7d" else a

/-- One-to-`max_steps` iterations of the while loop of
`run_react_agent_fallback`, returning the result string and the final
transcript.  The fuel argument is the remaining step budget, so the loop
terminates after at most `max_steps` iterations for every backend; each
iteration makes exactly one backend (model) call.  `time.sleep` and
logging are omitted as observationally irrelevant. -/
def reactSteps (searchOracle : String → String) (backend : List Msg → ModelMsg) :
    Nat → List Msg → String × List Msg
  | 0, messages => (stoppedMsg, messages)
  | remaining + 1, messages =>
    let msg := backend messages
    if msg.role == "assistant" && contentTruthy msg.content then
      let assistant_text := msg.content.getD ""
      let messages2 := messages ++ [{ role := "assistant", content := some assistant_text }]
      if containsFinal assistant_text then (extractFinal assistant_text, messages2)
      else reactSteps searchOracle backend remaining messages2
    else
      match msg.function_call with
      | some fc =>
        let argstr := argStrOrDefault fc.arguments
        let args := (parseJsonObj argstr).getD []
        let messages2 := messages ++
          [{ role := "assistant", content := msg.content, function_call := some (fc.name, argstr) }]
        let result := dispatch_function_call searchOracle fc.name args
        let messages3 := messages2 ++
          [{ role := "function", name := some fc.name, content := some result }]
        reactSteps searchOracle backend remaining messages3
      | none => reactSteps searchOracle backend remaining messages

/-- Embedding of `run_react_agent_fallback` (the returned result
string). -/
def run_react_agent_fallback (searchOracle : String → String)
    (backend : List Msg → ModelMsg) (user_question : String)
    (max_steps : Nat := 8) : String :=
  (reactSteps searchOracle backend max_steps (seedMessages user_question)).1

/-- The final state of the loop's internal `messages` list, exposed for
the transcript invariants. -/
def runTranscript (searchOracle : String → String)
    (backend : List Msg → ModelMsg) (user_question : String)
    (max_steps : Nat := 8) : List Msg :=
  (reactSteps searchOracle backend max_steps (seedMessages user_question)).2

/-- Embedding of `build_and_run_langgraph`: the LangGraph integration is
disabled in the source; the function unconditionally delegates to the
fallback runner with its own `max_steps` default of 8. -/
def build_and_run_langgraph (searchOracle : String → String)
    (backend : List Msg → ModelMsg) (question : String)
    (max_steps : Nat := 8) : String :=
  run_react_agent_fallback searchOracle backend question max_steps

/-- Embedding of the public `run`: `has_langgraph` models the
import-time `HAS_LANGGRAPH` flag of the process environment. -/
def run (searchOracle : String → String) (backend : List Msg → ModelMsg)
    (has_langgraph : Bool) (question : String)
    (use_langgraph : Bool := true) : String :=
  if use_langgraph && has_langgraph then
    build_and_run_langgraph searchOracle backend question
  else
    run_react_agent_fallback searchOracle backend question

/-- Purely numeric arithmetic trees: integer literals combined with the
allowed binary operators and unary negation (the expression class of the
spec sentence "only numeric literals and the allowed operators"). -/
def numericOnly : PyExpr → Bool
  | .Constant (.int _) => true
  | .Constant _ => false
  | .BinOp l _ r => numericOnly l && numericOnly r
  | .UnaryOp e => numericOnly e
  | .Name _ => false
  | .Call _ _ => false
  | .Attribute _ _ => false

/-- All node kinds in the subtree rooted at a walked node. -/
def pyNodeKinds : PyNode → List NodeKind
  | .ex e => exprKinds e
  | .opNode o => [opNodeKind o]
  | .usubNode => [.USub]
  | .loadNode => [.Load]

/-- The transcript invariant of the spec: every tool-result entry (role
"function") is preceded, somewhere strictly earlier in the transcript,
by an assistant entry whose recorded tool-call name matches the
tool-result entry's `name` field. -/
def ToolResultsJustified (ts : List Msg) : Prop :=
  ∀ i, ∀ hi : i < ts.length, (ts.get ⟨i, hi⟩).role = "function" →
    ∃ j, ∃ hj : j < ts.length, j < i ∧
      (ts.get ⟨j, hj⟩).role = "assistant" ∧
      ∃ nm arg, (ts.get ⟨j, hj⟩).function_call = some (nm, arg) ∧
        (ts.get ⟨i, hi⟩).name = some nm

/-- A search oracle for concrete runs that never touch the search tool. -/
def noSearch : String → String := fun _ => ""

/-- A model backend whose every response is the plain assistant text
"Final Answer: 42". -/
def backendFinal42 : List Msg → ModelMsg := fun _ =>
  { role := "assistant", content := some "Final Answer: 42", function_call := none }

/-- A model backend that always requests a `calc` tool call and never
produces any text. -/
def backendToolCallsOnly : List Msg → ModelMsg := fun _ =>
  { role := "assistant", content := none,
    function_call := some { name := "calc", arguments := some "\x7b\x7d" } }

/-- A model backend whose every response carries both non-empty
assistant text and a structured `calc` tool-call request. -/
def backendTextAndTool : List Msg → ModelMsg := fun _ =>
  { role := "assistant", content := some "thinking",
    function_call := some { name := "calc", arguments := some "\x7b\"expression\": \"1+1\"\x7d" } }

/-- The model backend of the spec's section-8 scenario: the first call
(on the two-entry seed transcript) requests `calc("1991-1989")`; the
second call answers "Final Answer: 2". -/
def backendScenario : List Msg → ModelMsg := fun msgs =>
  if msgs.length == 2 then
    { role := "assistant", content := none,
      function_call := some { name := "calc", arguments := some "\x7b\"expression\": \"1991-1989\"\x7d" } }
  else
    { role := "assistant", content := some "Final Answer: 2", function_call := none }

theorem pyNodeWeight_pos (n : PyNode) : 1 ≤ pyNodeWeight n := by
  cases n with
  | ex e => cases e <;> simp [pyNodeWeight, exprWeight] <;> omega
  | opNode o => simp [pyNodeWeight]
  | usubNode => simp [pyNodeWeight]
  | loadNode => simp [pyNodeWeight]

theorem queueWeight_children (n : PyNode) :
    queueWeight (pyNodeChildren n) + 1 = pyNodeWeight n := by
  cases n with
  | ex e =>
    cases e <;> simp [queueWeight, pyNodeChildren, pyNodeWeight, exprWeight] <;> omega
  | opNode o => simp [queueWeight, pyNodeChildren, pyNodeWeight]
  | usubNode => simp [queueWeight, pyNodeChildren, pyNodeWeight]
  | loadNode => simp [queueWeight, pyNodeChildren, pyNodeWeight]

theorem mem_pyNodeKinds (k : NodeKind) (n : PyNode) :
    k ∈ pyNodeKinds n ↔ k = pyNodeKind n ∨ ∃ c ∈ pyNodeChildren n, k ∈ pyNodeKinds c := by
  cases n with
  | ex e =>
    cases e <;>
      simp [pyNodeKinds, pyNodeKind, pyNodeChildren, exprKinds, List.mem_append] <;>
      tauto
  | opNode o => simp [pyNodeKinds, pyNodeKind, pyNodeChildren]
  | usubNode => simp [pyNodeKinds, pyNodeKind, pyNodeChildren]
  | loadNode => simp [pyNodeKinds, pyNodeKind, pyNodeChildren]

theorem mem_bfsWalk (k : NodeKind) :
    ∀ fuel q, queueWeight q ≤ fuel →
      (k ∈ bfsWalk fuel q ↔ ∃ n ∈ q, k ∈ pyNodeKinds n) := by
  intro fuel
  induction fuel with
  | zero =>
    intro q hq
    cases q with
    | nil => simp [bfsWalk]
    | cons n rest =>
      exfalso
      have h1 := pyNodeWeight_pos n
      simp [queueWeight] at hq
      omega
  | succ f ih =>
    intro q hq
    cases q with
    | nil => simp [bfsWalk]
    | cons n rest =>
      have hw := queueWeight_children n
      have hq2 : queueWeight (rest ++ pyNodeChildren n) ≤ f := by
        simp only [queueWeight, List.map_append, List.sum_append, List.map_cons,
          List.sum_cons] at hq hw ⊢
        omega
      rw [bfsWalk]
      simp only [List.mem_cons, ih _ hq2, List.mem_append]
      constructor
      · rintro (rfl | ⟨m, hm | hm, hk⟩)
        · exact ⟨n, Or.inl rfl, (mem_pyNodeKinds _ _).mpr (Or.inl rfl)⟩
        · exact ⟨m, Or.inr hm, hk⟩
        · exact ⟨n, Or.inl rfl, (mem_pyNodeKinds _ _).mpr (Or.inr ⟨m, hm, hk⟩)⟩
      · rintro ⟨m, rfl | hm, hk⟩
        · rcases (mem_pyNodeKinds _ _).mp hk with h | ⟨c, hc, hkc⟩
          · exact Or.inl h
          · exact Or.inr ⟨c, Or.inr hc, hkc⟩
        · exact Or.inr ⟨m, Or.inl hm, hk⟩

theorem mem_walkKinds (t : PyExpr) (k : NodeKind) :
    k ∈ walkKinds t ↔ k ∈ treeKinds t := by
  have hq : queueWeight [PyNode.ex t] ≤ exprWeight t := by
    simp [queueWeight, pyNodeWeight]
  simp only [walkKinds, treeKinds, List.mem_cons, mem_bfsWalk k (exprWeight t) _ hq]
  simp [pyNodeKinds]

theorem firstDisallowed_eq_none (t : PyExpr)
    (h : ∀ k ∈ treeKinds t, kindAllowed k = true) : firstDisallowed t = none := by
  unfold firstDisallowed
  rw [List.find?_eq_none]
  intro x hx
  have hx2 := h x ((mem_walkKinds t x).mp hx)
  simp [hx2]

theorem exists_firstDisallowed (t : PyExpr)
    (h : ∃ k ∈ treeKinds t, kindAllowed k = false) :
    ∃ k, firstDisallowed t = some k ∧ k ∈ treeKinds t ∧ kindAllowed k = false := by
  obtain ⟨k, hk, hna⟩ := h
  have hmem : k ∈ walkKinds t := (mem_walkKinds t k).mpr hk
  have hsome : (firstDisallowed t).isSome := by
    unfold firstDisallowed
    rw [List.find?_isSome]
    exact ⟨k, hmem, by simp [hna]⟩
  obtain ⟨k0, hk0⟩ := Option.isSome_iff_exists.mp hsome
  refine ⟨k0, hk0, (mem_walkKinds t k0).mp (List.mem_of_find?_eq_some hk0), ?_⟩
  have hp := List.find?_some hk0
  simpa using hp

theorem opNodeKind_allowed (o : PyOp) : kindAllowed (opNodeKind o) = true := by
  cases o <;> decide

theorem numericOnly_exprKinds (t : PyExpr) (h : numericOnly t = true) :
    ∀ k ∈ exprKinds t, kindAllowed k = true := by
  induction t with
  | Constant c =>
    cases c with
    | int n => intro k hk; simp [exprKinds] at hk; subst hk; decide
    | str s => simp [numericOnly] at h
    | bool b => simp [numericOnly] at h
    | noneC => simp [numericOnly] at h
  | BinOp l o r ihl ihr =>
    simp only [numericOnly, Bool.and_eq_true] at h
    intro k hk
    simp only [exprKinds, List.mem_cons, List.mem_append] at hk
    rcases hk with rfl | rfl | hk | hk
    · decide
    · exact opNodeKind_allowed o
    · exact ihl h.1 k hk
    · exact ihr h.2 k hk
  | UnaryOp e ih =>
    simp only [numericOnly] at h
    intro k hk
    simp only [exprKinds, List.mem_cons] at hk
    rcases hk with rfl | rfl | hk
    · decide
    · decide
    · exact ih h k hk
  | Name x => simp [numericOnly] at h
  | Call f a ihf iha => simp [numericOnly] at h
  | Attribute v a ih => simp [numericOnly] at h

theorem numericOnly_validated (t : PyExpr) (h : numericOnly t = true) :
    firstDisallowed t = none := by
  apply firstDisallowed_eq_none
  intro k hk
  simp only [treeKinds, List.mem_cons] at hk
  rcases hk with rfl | hk
  · decide
  · exact numericOnly_exprKinds t h k hk

theorem safe_eval_of_parse_ok (s : String) (t : PyExpr)
    (h : parseEval s = Except.ok t) : safe_eval s = safe_eval_tree t := by
  simp [safe_eval, h]

theorem safe_eval_of_parse_error (s : String) (e : String)
    (h : parseEval s = Except.error e) :
    safe_eval s = "calc error: invalid expression (" ++ e ++ ")" := by
  simp [safe_eval, h]

theorem safe_eval_tree_of_disallowed (t : PyExpr) (k : NodeKind)
    (h : firstDisallowed t = some k) :
    safe_eval_tree t = "calc error: disallowed expression part " ++ kindName k := by
  simp [safe_eval_tree, h]

theorem safe_eval_tree_of_eval_ok (t : PyExpr) (v : PyVal)
    (hw : firstDisallowed t = none) (he : pyEval t = Except.ok v) :
    safe_eval_tree t = pyValStr v := by
  simp [safe_eval_tree, hw, he]

theorem safe_eval_tree_of_eval_error (t : PyExpr) (e : PyErr)
    (hw : firstDisallowed t = none) (he : pyEval t = Except.error e) :
    safe_eval_tree t = "calc error: evaluation failed (" ++ errText e ++ ")" := by
  simp [safe_eval_tree, hw, he]

/-- C1: for every input string, `safe_eval` returns a string and never
raises (it is a total function into `String`); a parse failure yields an
"invalid expression" message, an arithmetic failure during evaluation of
a validated tree yields an "evaluation failed" message, and in
particular `safe_eval ""` and `safe_eval "1/0"` each return an error
string rather than a numeric value. -/
theorem C1_safe_eval_never_raises_error_strings :
    (∀ s e, parseEval s = Except.error e →
      safe_eval s = "calc error: invalid expression (" ++ e ++ ")") ∧
    (∀ s t e, parseEval s = Except.ok t → firstDisallowed t = none →
      pyEval t = Except.error e →
      safe_eval s = "calc error: evaluation failed (" ++ errText e ++ ")") ∧
    safe_eval "" = "calc error: invalid expression (unexpected token or end of input)" ∧
    safe_eval "1/0" = "calc error: evaluation failed (division by zero)" := by
  refine ⟨?_, ?_, by decide, by decide⟩
  · intro s e h
    exact safe_eval_of_parse_error s e h
  · intro s t e hp hw he
    rw [safe_eval_of_parse_ok s t hp]
    exact safe_eval_tree_of_eval_error t e hw he

/-- Witness for C1 at the concrete inputs of the claim: the parse
failure of the empty string and the division-by-zero failure of
`"1/0"`. -/
theorem C1_witness :
    safe_eval "" = "calc error: invalid expression (" ++ "unexpected token or end of input" ++ ")" ∧
    safe_eval "1/0" =
      "calc error: evaluation failed (" ++ errText (PyErr.zeroDivision "division by zero") ++ ")" :=
  ⟨C1_safe_eval_never_raises_error_strings.1 "" "unexpected token or end of input" rfl,
   C1_safe_eval_never_raises_error_strings.2.1 "1/0"
     (PyExpr.BinOp (PyExpr.Constant (PyConst.int 1)) PyOp.Div (PyExpr.Constant (PyConst.int 0)))
     (PyErr.zeroDivision "division by zero") rfl (by decide) rfl⟩

/-- C2: every tree containing at least one node whose syntactic category
is outside the allow-list is rejected with a "disallowed expression
part" message naming an offending (non-allow-listed) category present in
the tree, and every input string parsing to such a tree gets that same
message from `safe_eval`; the rejection is decided by the validation
walk before `pyEval` is consulted, so no part of the expression is
evaluated.  Unlisted syntax is rejected by the positive membership test
`kindAllowed`. -/
theorem C2_disallowed_parts_rejected :
    ∀ t : PyExpr, (∃ k ∈ treeKinds t, kindAllowed k = false) →
      ∃ k, k ∈ treeKinds t ∧ kindAllowed k = false ∧
        safe_eval_tree t = "calc error: disallowed expression part " ++ kindName k ∧
        ∀ s, parseEval s = Except.ok t →
          safe_eval s = "calc error: disallowed expression part " ++ kindName k := by
  intro t h
  obtain ⟨k, hfind, hmem, hna⟩ := exists_firstDisallowed t h
  refine ⟨k, hmem, hna, safe_eval_tree_of_disallowed t k hfind, ?_⟩
  intro s hs
  rw [safe_eval_of_parse_ok s t hs]
  exact safe_eval_tree_of_disallowed t k hfind

/-- Witness for C2 at the concrete tree `Name "x"` (the parse tree of
the input string `"x"`). -/
theorem C2_witness :
    ∃ k, k ∈ treeKinds (PyExpr.Name "x") ∧ kindAllowed k = false ∧
      safe_eval_tree (PyExpr.Name "x") = "calc error: disallowed expression part " ++ kindName k ∧
      ∀ s, parseEval s = Except.ok (PyExpr.Name "x") →
        safe_eval s = "calc error: disallowed expression part " ++ kindName k :=
  C2_disallowed_parts_rejected (PyExpr.Name "x") ⟨NodeKind.Name, by decide, by decide⟩

/-- C6: every purely numeric expression (integer literals and the
allowed operators) passes validation, and whenever its sandboxed
evaluation succeeds `safe_eval` returns the decimal rendering of the
computed value; in particular dispatching `calc` on `"(3+4)*5"` returns
`"35"` for every search oracle. -/
theorem C6_numeric_expressions_evaluate :
    (∀ s t v, parseEval s = Except.ok t → numericOnly t = true →
      pyEval t = Except.ok v → safe_eval s = pyValStr v) ∧
    ∀ searchOracle, dispatch_function_call searchOracle "calc"
      [("expression", "(3+4)*5")] = "35" := by
  constructor
  · intro s t v hp hn he
    rw [safe_eval_of_parse_ok s t hp]
    exact safe_eval_tree_of_eval_ok t v (numericOnly_validated t hn) he
  · intro searchOracle
    rfl

/-- Witness for C6 at the concrete input `"(3+4)*5"`, whose parse tree
evaluates to the integer 35. -/
theorem C6_witness : safe_eval "(3+4)*5" = pyValStr (PyVal.int 35) :=
  C6_numeric_expressions_evaluate.1 "(3+4)*5"
    (PyExpr.BinOp
      (PyExpr.BinOp (PyExpr.Constant (PyConst.int 3)) PyOp.Add (PyExpr.Constant (PyConst.int 4)))
      PyOp.Mult (PyExpr.Constant (PyConst.int 5)))
    (PyVal.int 35) rfl (by decide) rfl

/-- C7: dispatching any tool name other than "search" and "calc"
returns the "unknown function" string for that name, for every argument
mapping and search oracle ("never raises" is the totality of the
dispatcher). -/
theorem C7_unknown_function_name :
    ∀ searchOracle function_name args, function_name ≠ "search" → function_name ≠ "calc" →
      dispatch_function_call searchOracle function_name args =
        "unknown function " ++ function_name := by
  intro searchOracle function_name args h1 h2
  simp [dispatch_function_call, h1, h2]

/-- Witness for C7 at the concrete name "bogus_tool" with empty
arguments. -/
theorem C7_witness :
    dispatch_function_call noSearch "bogus_tool" [] = "unknown function " ++ "bogus_tool" :=
  C7_unknown_function_name noSearch "bogus_tool" [] (by decide) (by decide)

/-- C10: the allow-list admits every `Constant` node, not only numeric
literals: validation passes for every constant expression, and the
string, boolean and `None` literals evaluate to their values rendered as
strings rather than being rejected. -/
theorem C10_all_constants_admitted :
    (∀ c : PyConst, firstDisallowed (PyExpr.Constant c) = none) ∧
    safe_eval "\"abc\"" = "abc" ∧
    safe_eval "True" = "True" ∧
    safe_eval "None" = "None" := by
  refine ⟨?_, by decide, by decide, by decide⟩
  intro c
  cases c <;> rfl

theorem msg_get_append_left (ts ss : List Msg) :
    ∀ i (hi : i < ts.length) (h2 : i < (ts ++ ss).length),
      (ts ++ ss).get ⟨i, h2⟩ = ts.get ⟨i, hi⟩ := by
  induction ts with
  | nil => intro i hi h2; exact absurd hi (by simp)
  | cons a ts ih =>
    intro i hi h2
    cases i with
    | zero => rfl
    | succ i => exact ih i (by simpa using hi) (by simpa using h2)

theorem msg_get_concat (ts : List Msg) (x : Msg) :
    ∀ h : ts.length < (ts ++ [x]).length, (ts ++ [x]).get ⟨ts.length, h⟩ = x := by
  induction ts with
  | nil => intro h; rfl
  | cons a ts ih => intro h; exact ih (by simpa using h)

theorem justified_snoc (ts : List Msg) (m : Msg)
    (h : ToolResultsJustified ts) (hm : ¬ m.role = "function") :
    ToolResultsJustified (ts ++ [m]) := by
  intro i hi hrole
  have hlen : (ts ++ [m]).length = ts.length + 1 := by simp
  by_cases hlt : i < ts.length
  · rw [msg_get_append_left ts [m] i hlt hi] at hrole
    obtain ⟨j, hj, hji, hjrole, nm, arg, hjfc, hname⟩ := h i hlt hrole
    refine ⟨j, by omega, hji, ?_, nm, arg, ?_, ?_⟩
    · rw [msg_get_append_left ts [m] j hj]; exact hjrole
    · rw [msg_get_append_left ts [m] j hj]; exact hjfc
    · rw [msg_get_append_left ts [m] i hlt]; exact hname
  · have hieq : i = ts.length := by omega
    subst hieq
    rw [msg_get_concat ts m hi] at hrole
    exact absurd hrole hm

theorem justified_snoc_fn (ts : List Msg) (f : Msg) (nm : String)
    (h : ToolResultsJustified ts)
    (j0 : Nat) (hj0 : j0 < ts.length)
    (hrole0 : (ts.get ⟨j0, hj0⟩).role = "assistant")
    (harg : ∃ arg, (ts.get ⟨j0, hj0⟩).function_call = some (nm, arg))
    (_hf : f.role = "function") (hn : f.name = some nm) :
    ToolResultsJustified (ts ++ [f]) := by
  intro i hi hrole
  by_cases hlt : i < ts.length
  · rw [msg_get_append_left ts [f] i hlt hi] at hrole
    obtain ⟨j, hj, hji, hjrole, nm2, arg2, hjfc, hname⟩ := h i hlt hrole
    refine ⟨j, by omega, hji, ?_, nm2, arg2, ?_, ?_⟩
    · rw [msg_get_append_left ts [f] j hj]; exact hjrole
    · rw [msg_get_append_left ts [f] j hj]; exact hjfc
    · rw [msg_get_append_left ts [f] i hlt]; exact hname
  · have hieq : i = ts.length := by
      have : i < ts.length + 1 := by simpa using hi
      omega
    subst hieq
    obtain ⟨arg, hfc⟩ := harg
    refine ⟨j0, by omega, hj0, ?_, nm, arg, ?_, ?_⟩
    · rw [msg_get_append_left ts [f] j0 hj0]; exact hrole0
    · rw [msg_get_append_left ts [f] j0 hj0]; exact hfc
    · rw [msg_get_concat ts f hi]; exact hn

theorem seed_justified (q : String) : ToolResultsJustified (seedMessages q) := by
  intro i hi hrole
  exfalso
  rcases i with _ | _ | i
  · simp [seedMessages] at hrole
  · simp [seedMessages] at hrole
  · simp only [seedMessages, List.length_cons, List.length_nil] at hi
    omega

theorem reactSteps_justified (searchOracle : String → String)
    (backend : List Msg → ModelMsg) :
    ∀ n ms, ToolResultsJustified ms →
      ToolResultsJustified (reactSteps searchOracle backend n ms).2 := by
  intro n
  induction n with
  | zero => intro ms h; exact h
  | succ m ih =>
    intro ms h
    simp only [reactSteps]
    split
    · split
      · exact justified_snoc ms _ h (by intro hx; simp at hx)
      · exact ih _ (justified_snoc ms _ h (by intro hx; simp at hx))
    · split
      · rename_i fc hfc
        apply ih
        refine justified_snoc_fn (ms ++ [_]) _ fc.name
          (justified_snoc ms _ h (by intro hx; simp at hx)) ms.length (by simp) ?_ ?_ rfl rfl
        · rw [msg_get_concat]
        · exact ⟨argStrOrDefault fc.arguments, by rw [msg_get_concat]⟩
      · exact ih _ h

theorem reactSteps_tool_only (searchOracle : String → String)
    (backend : List Msg → ModelMsg)
    (hc : ∀ ms, contentTruthy (backend ms).content = false)
    (hf : ∀ ms, ∃ fc, (backend ms).function_call = some fc) :
    ∀ n ms, (reactSteps searchOracle backend n ms).1 = stoppedMsg ∧
      (reactSteps searchOracle backend n ms).2.length = ms.length + 2 * n := by
  intro n
  induction n with
  | zero => intro ms; exact ⟨rfl, by simp [reactSteps]⟩
  | succ m ih =>
    intro ms
    obtain ⟨fc, hfc⟩ := hf ms
    have hcond : ((backend ms).role == "assistant" && contentTruthy (backend ms).content) = false := by
      rw [hc ms]
      simp
    simp only [reactSteps, hcond, Bool.false_eq_true, if_false, hfc]
    refine ⟨(ih _).1, ?_⟩
    rw [(ih _).2]
    simp only [List.length_append, List.length_cons, List.length_nil]
    omega

/-- C3 (amended): when a model response carries both non-empty assistant
text and a structured tool-call request, the loop handles it as a plain
text response — the text branch runs first, the appended assistant entry
records the text but not the tool call, and no tool is dispatched and no
tool-result entry is appended in that step (text takes precedence over
the tool-call, the opposite of the claimed tie-break). -/
theorem C3_text_takes_precedence :
    ∀ (searchOracle : String → String) (backend : List Msg → ModelMsg)
      (n : Nat) (ms : List Msg) (s : String) (fc : FuncCallMsg),
      (backend ms).role = "assistant" →
      (backend ms).content = some s →
      s ≠ "" →
      (backend ms).function_call = some fc →
      reactSteps searchOracle backend (n + 1) ms =
        (if containsFinal s then
          (extractFinal s, ms ++ [{ role := "assistant", content := some s }])
        else
          reactSteps searchOracle backend n
            (ms ++ [{ role := "assistant", content := some s }])) := by
  intro searchOracle backend n ms s fc hrole hcontent hs hfc
  have hb : (("assistant" : String) == "assistant" && contentTruthy (some s)) = true := by
    simp [contentTruthy, hs]
  simp only [reactSteps, hrole, hcontent, Option.getD_some, hb, eq_self_iff_true, if_true]

/-- Counterexample to C3 as stated: a backend whose response carries
both the non-empty text "thinking" and a `calc` tool-call; the one-step
run appends only the assistant text entry — with no recorded tool call —
and the transcript contains no tool-result (role "function") entry, so
the tool-call was not dispatched. -/
theorem C3_counterexample :
    backendTextAndTool (seedMessages "q") =
      { role := "assistant", content := some "thinking",
        function_call :=
          some (FuncCallMsg.mk "calc" (some "\x7b\"expression\": \"1+1\"\x7d")) } ∧
    (reactSteps noSearch backendTextAndTool 1 (seedMessages "q")).2 =
      seedMessages "q" ++ [{ role := "assistant", content := some "thinking" }] ∧
    List.filter (fun m => m.role == "function")
      (reactSteps noSearch backendTextAndTool 1 (seedMessages "q")).2 = [] := by
  refine ⟨rfl, by decide, by decide⟩

/-- Witness for the amended C3 at a concrete backend carrying both text
and a tool-call. -/
theorem C3_witness :
    reactSteps noSearch backendTextAndTool (0 + 1) (seedMessages "q") =
      (if containsFinal "thinking" then
        (extractFinal "thinking",
          seedMessages "q" ++ [{ role := "assistant", content := some "thinking" }])
      else
        reactSteps noSearch backendTextAndTool 0
          (seedMessages "q" ++ [{ role := "assistant", content := some "thinking" }])) :=
  C3_text_takes_precedence noSearch backendTextAndTool 0 (seedMessages "q") "thinking"
    (FuncCallMsg.mk "calc" (some "\x7b\"expression\": \"1+1\"\x7d"))
    rfl rfl (by decide) rfl

/-- C4 (amended): for every `max_steps ≥ 1`, a backend whose response
on the seed transcript is the plain assistant text "Final Answer: 42"
makes the run return exactly "42" during the first iteration: the final
transcript extends the seed by that single assistant entry, and the
result depends only on the backend value at the seed transcript (so no
further model calls are made). -/
theorem C4_final_answer_first_iteration :
    ∀ (searchOracle : String → String) (backend : List Msg → ModelMsg)
      (q : String) (n : Nat),
      backend (seedMessages q) =
        { role := "assistant", content := some "Final Answer: 42", function_call := none } →
      1 ≤ n →
      run_react_agent_fallback searchOracle backend q n = "42" ∧
      (reactSteps searchOracle backend n (seedMessages q)).2 =
        seedMessages q ++ [{ role := "assistant", content := some "Final Answer: 42" }] := by
  intro searchOracle backend q n hb hn
  obtain ⟨m, rfl⟩ : ∃ m, n = m + 1 := ⟨n - 1, by omega⟩
  have h1 : (("assistant" : String) == "assistant" && contentTruthy (some "Final Answer: 42")) = true := by decide
  have h2 : containsFinal "Final Answer: 42" = true := by decide
  have h3 : extractFinal "Final Answer: 42" = "42" := by decide
  constructor
  · simp only [run_react_agent_fallback, reactSteps, hb, Option.getD_some, h1, if_true, h2, h3]
  · simp only [reactSteps, hb, Option.getD_some, h1, if_true, h2]

/-- Counterexample to C4 as stated ("for every max_steps"): with
`max_steps = 0` the while loop body never runs, and the run returns the
budget-exhausted sentinel instead of "42" even though the backend
responds "Final Answer: 42". -/
theorem C4_counterexample :
    backendFinal42 (seedMessages "question") =
      { role := "assistant", content := some "Final Answer: 42", function_call := none } ∧
    run_react_agent_fallback noSearch backendFinal42 "question" 0 = stoppedMsg ∧
    run_react_agent_fallback noSearch backendFinal42 "question" 0 ≠ "42" := by
  refine ⟨rfl, rfl, by decide⟩

/-- Witness for the amended C4 at the concrete backend `backendFinal42`
with the default budget of 8 steps. -/
theorem C4_witness :
    run_react_agent_fallback noSearch backendFinal42 "question" 8 = "42" ∧
    (reactSteps noSearch backendFinal42 8 (seedMessages "question")).2 =
      seedMessages "question" ++
        [{ role := "assistant", content := some "Final Answer: 42" }] :=
  C4_final_answer_first_iteration noSearch backendFinal42 "question" 8 rfl (by decide)

/-- C5: for every `max_steps ≥ 0` and every backend that always
requests a tool call (no text, a structured function call on every
response), the run returns the budget-exhausted sentinel, and the final
transcript holds the 2-entry seed plus exactly two entries per
iteration — so exactly `max_steps` iterations (one model call each)
were performed.  Termination for every backend after at most
`max_steps` iterations is the totality of `reactSteps`, whose fuel is
the remaining step budget. -/
theorem C5_exhausts_budget_with_sentinel :
    ∀ (searchOracle : String → String) (backend : List Msg → ModelMsg)
      (q : String) (n : Nat),
      (∀ ms, contentTruthy (backend ms).content = false) →
      (∀ ms, ∃ fc, (backend ms).function_call = some fc) →
      run_react_agent_fallback searchOracle backend q n = stoppedMsg ∧
      (runTranscript searchOracle backend q n).length = 2 + 2 * n := by
  intro searchOracle backend q n hc hf
  obtain ⟨h1, h2⟩ := reactSteps_tool_only searchOracle backend hc hf n (seedMessages q)
  refine ⟨h1, ?_⟩
  rw [runTranscript, h2]
  simp [seedMessages]

/-- Witness for C5 at the concrete always-calling backend and a budget
of 3 steps. -/
theorem C5_witness :
    run_react_agent_fallback noSearch backendToolCallsOnly "q" 3 = stoppedMsg ∧
    (runTranscript noSearch backendToolCallsOnly "q" 3).length = 2 + 2 * 3 :=
  C5_exhausts_budget_with_sentinel noSearch backendToolCallsOnly "q" 3
    (fun _ => rfl) (fun _ => ⟨_, rfl⟩)

/-- C8: the public `run` behaves identically with and without
`use_langgraph`, for every import-time `HAS_LANGGRAPH` flag, search
oracle, backend and question: both paths route to the built-in fallback
loop with the same default `max_steps` of 8. -/
theorem C8_selector_is_observationally_identity :
    ∀ (searchOracle : String → String) (backend : List Msg → ModelMsg)
      (has_langgraph : Bool) (question : String),
      run searchOracle backend has_langgraph question true =
        run searchOracle backend has_langgraph question false ∧
      run searchOracle backend has_langgraph question true =
        run_react_agent_fallback searchOracle backend question 8 := by
  intro searchOracle backend has_langgraph question
  cases has_langgraph <;> simp [run, build_and_run_langgraph]

/-- C9: in every transcript produced by a run of the agent loop, every
tool-result entry (role "function") is preceded strictly earlier by an
assistant entry whose recorded tool-call name matches the tool-result
name; and in the section-8 scenario the run returns "2" and the
transcript is exactly: system, user, assistant tool-call,
tool-result "2", assistant final-text. -/
theorem C9_tool_results_justified :
    (∀ (searchOracle : String → String) (backend : List Msg → ModelMsg)
      (q : String) (n : Nat),
      ToolResultsJustified (runTranscript searchOracle backend q n)) ∧
    run_react_agent_fallback noSearch backendScenario "compute 1991 - 1989" 8 = "2" ∧
    runTranscript noSearch backendScenario "compute 1991 - 1989" 8 =
      [{ role := "system", content := some SYSTEM_PROMPT },
       { role := "user", content := some "compute 1991 - 1989" },
       { role := "assistant", content := none,
         function_call := some ("calc", "\x7b\"expression\": \"1991-1989\"\x7d") },
       { role := "function", name := some "calc", content := some "2" },
       { role := "assistant", content := some "Final Answer: 2" }] := by
  refine ⟨?_, by decide, by decide⟩
  intro searchOracle backend q n
  exact reactSteps_justified searchOracle backend n (seedMessages q) (seed_justified q)

/-- Witness for C9 at the concrete scenario run. -/
theorem C9_witness :
    ToolResultsJustified (runTranscript noSearch backendScenario "compute 1991 - 1989" 8) :=
  C9_tool_results_justified.1 noSearch backendScenario "compute 1991 - 1989" 8
